import Mathlib

/-!
Shallow embedding of `crates/bevy_ecs/src/system/system_registry.rs`.

The registry stores initialized systems in an append-only vector and keeps a
map from labels to the list of stored positions carrying that label.  The
world is modelled by its observable resources (the `Counter` resource used
throughout the file's tests and docs, plus an entity count for systems that
spawn entities through commands).  A system is a step function on its own
internal state and the world that may also queue deferred commands; the
source runs a system and then immediately applies its command queue
(`run`, then `apply_buffers`).  Rust panics are modelled as `Except.error`.
-/

namespace SystemRegistryModel

/-- Observable world state: the `Counter` resource and the number of spawned
entities.  The rest of `World` is outside this core. -/
structure World where
  counter : Nat
  entities : Nat
  deriving Repr, DecidableEq

/-- A deferred command: an arbitrary world mutation queued during a run and
applied by `apply_buffers`. -/
def Cmd : Type := World → World

/-- Applying a command queue in FIFO order (`apply_buffers`). -/
def applyCmds (cmds : List Cmd) (world : World) : World :=
  cmds.foldl (fun w c => c w) world

/-- A stored, initialized system (`StoredSystem`): its private state, the
commands it has queued but not yet flushed, and its step function, which
takes the private state and the world to a new private state, a new world,
and a batch of queued commands. -/
structure StoredSystem where
  state : Nat
  pending : List Cmd
  step : Nat → World → Nat × World × List Cmd

/-- An un-stored work object as passed to registration
(`Box<dyn System<In = (), Out = ()>>` before `initialize` runs): the state
its initialization produces, the effect initialization has on the world
(allocating component metadata and the like), and its step function. -/
structure BoxedSystem where
  initState : Nat
  initWorld : World → World
  step : Nat → World → Nat × World × List Cmd

/-- A type-erased label key (`Box<dyn SystemLabel>`): either an explicit user
label (strings in the tests) or an automatic per-type label
(`SystemTypeIdLabel`, identified here by a numeric type id). -/
inductive LabelKey where
  | named : String → LabelKey
  | auto : Nat → LabelKey
  deriving Repr, DecidableEq

/-- A fatal failure (Rust panic) of the registry. -/
inductive RegError where
  | labelNotFound : LabelKey → RegError
  | indexOutOfRange : Nat → RegError
  deriving Repr, DecidableEq

/-- The registry: the ordered system vector and the label index
(`HashMap<Box<dyn SystemLabel>, Vec<usize>>`, modelled as an association
list looked up by label equality). -/
structure SystemRegistry where
  systems : List StoredSystem
  labels : List (LabelKey × List Nat)

/-- `HashMap::get`: first entry whose key equals the label. -/
def lookupLabel : List (LabelKey × List Nat) → LabelKey → Option (List Nat)
  | [], _ => none
  | (k, v) :: rest, l => if k = l then some v else lookupLabel rest l

/-- The body of the per-label loop in `register_boxed_system_with_labels`:
push the index onto the existing entry, or insert a fresh one-element
entry. -/
def addIndex : List (LabelKey × List Nat) → LabelKey → Nat → List (LabelKey × List Nat)
  | [], l, n => [(l, [n])]
  | (k, v) :: rest, l, n =>
      if k = l then (k, v ++ [n]) :: rest else (k, v) :: addIndex rest l n

/-- `SystemRegistry::register_boxed_system_with_labels`: initialize the
system against the world, append it to the system vector, and record, under
every supplied label, the index computed as the vector's length AFTER the
push (exactly as the source does: `push` first, then
`let system_index = self.systems.len()`). -/
def registerBoxedSystemWithLabels (reg : SystemRegistry) (world : World)
    (sys : BoxedSystem) (labels : List LabelKey) : SystemRegistry × World :=
  let world' := sys.initWorld world
  let stored : StoredSystem := ⟨sys.initState, [], sys.step⟩
  let systems' := reg.systems ++ [stored]
  let systemIndex := systems'.length
  let labels' := labels.foldl (fun m l => addIndex m l systemIndex) reg.labels
  (⟨systems', labels'⟩, world')

/-- `System::run`: step the system, accumulating the queued commands. -/
def StoredSystem.run (s : StoredSystem) (world : World) : StoredSystem × World :=
  let r := s.step s.state world
  (⟨r.1, s.pending ++ r.2.2, s.step⟩, r.2.1)

/-- `System::apply_buffers`: flush the system's queued commands into the
world. -/
def StoredSystem.applyBuffers (s : StoredSystem) (world : World) :
    StoredSystem × World :=
  (⟨s.state, [], s.step⟩, applyCmds s.pending world)

/-- `SystemRegistry::run_system_at_index`: index into the system vector
(a Rust panic if out of range), run the system, then immediately apply its
buffers. -/
def runSystemAtIndex (reg : SystemRegistry) (world : World) (index : Nat) :
    Except RegError (SystemRegistry × World) :=
  match reg.systems[index]? with
  | none => .error (.indexOutOfRange index)
  | some s =>
      let p1 := s.run world
      let p2 := p1.1.applyBuffers p1.2
      .ok (⟨reg.systems.set index p2.1, reg.labels⟩, p2.2)

/-- The loop of `run_systems_by_boxed_label` over the (cloned) index list. -/
def runSystemsAtIndexes (reg : SystemRegistry) (world : World) :
    List Nat → Except RegError (SystemRegistry × World)
  | [] => .ok (reg, world)
  | i :: rest =>
      match runSystemAtIndex reg world i with
      | .error e => .error e
      | .ok (reg', world') => runSystemsAtIndexes reg' world' rest

/-- `SystemRegistry::run_systems_by_label` / `run_systems_by_boxed_label`:
look the label up (a Rust panic naming the label if absent), then run every
recorded index in order. -/
def runSystemsByLabel (reg : SystemRegistry) (world : World) (label : LabelKey) :
    Except RegError (SystemRegistry × World) :=
  match lookupLabel reg.labels label with
  | none => .error (.labelNotFound label)
  | some idxs => runSystemsAtIndexes reg world idxs

/-- `SystemRegistry::is_label_registered`. -/
def isLabelRegistered (reg : SystemRegistry) (label : LabelKey) : Bool :=
  (lookupLabel reg.labels label).isSome

/-- `SystemRegistry::first_registered_index`: the head of the label's index
list; the source unwraps twice (absent label, empty list), both modelled as
`none`. -/
def firstRegisteredIndex (reg : SystemRegistry) (label : LabelKey) : Option Nat :=
  match lookupLabel reg.labels label with
  | none => none
  | some idxs => idxs.head?

/-- The registration phase of `SystemRegistry::run_system`: if the automatic
label (`SystemTypeIdLabel`, here `LabelKey.auto tid`) is not yet registered,
register the system under its default labels (for a function system, exactly
its automatic label); otherwise leave registry and world untouched. -/
def runSystemRegPhase (reg : SystemRegistry) (world : World) (tid : Nat)
    (sys : BoxedSystem) : SystemRegistry × World :=
  if isLabelRegistered reg (LabelKey.auto tid) then (reg, world)
  else registerBoxedSystemWithLabels reg world sys [LabelKey.auto tid]

/-- `SystemRegistry::run_system`: after the registration phase, run the
first index registered under the automatic label (the source unwraps, so a
missing or empty entry would be a panic). -/
def runSystem (reg : SystemRegistry) (world : World) (tid : Nat)
    (sys : BoxedSystem) : Except RegError (SystemRegistry × World) :=
  match firstRegisteredIndex (runSystemRegPhase reg world tid sys).1
      (LabelKey.auto tid) with
  | none => .error (.labelNotFound (LabelKey.auto tid))
  | some i =>
      runSystemAtIndex (runSystemRegPhase reg world tid sys).1
        (runSystemRegPhase reg world tid sys).2 i

/-- The sequence of positions actually executed by the label-run loop: an
index is recorded when `runSystemAtIndex` on it succeeds; a failure aborts
the run (the Rust panic), so nothing after it executes. -/
def runIndexesTrace (reg : SystemRegistry) (world : World) : List Nat → List Nat
  | [] => []
  | i :: rest =>
      match runSystemAtIndex reg world i with
      | .error _ => []
      | .ok (reg', world') => i :: runIndexesTrace reg' world' rest

/-- The positions executed by `run_systems_by_label`: `none` when the label
is absent. -/
def runLabelTrace (reg : SystemRegistry) (world : World) (label : LabelKey) :
    Option (List Nat) :=
  match lookupLabel reg.labels label with
  | none => none
  | some idxs => some (runIndexesTrace reg world idxs)

/-- The empty registry (`SystemRegistry::default`). -/
def emptyRegistry : SystemRegistry := ⟨[], []⟩

/-- The starting world of the tests: `Counter` at 0, no entities. -/
def w0 : World := ⟨0, 0⟩

/-- The `count_up` test system generalized to an arbitrary increment:
it bumps the `Counter` resource by `k`, has no interesting private state,
queues no commands, and its initialization leaves the world unchanged. -/
def countUpBy (k : Nat) : BoxedSystem :=
  ⟨0, id, fun st w => (st, ⟨w.counter + k, w.entities⟩, [])⟩

/-- The `count_up` system of the tests (`counter.0 += 1`). -/
def countUp : BoxedSystem := countUpBy 1

/-- A system that queues a deferred spawn command and makes no direct world
change (the `spawn_entity` test system). -/
def spawnSys : BoxedSystem :=
  ⟨0, id, fun st w => (st, w, [fun w' => ⟨w'.counter, w'.entities + 1⟩])⟩

/-- The stored form of `spawnSys`, as registration stores it. -/
def spawnStored : StoredSystem := ⟨0, [], spawnSys.step⟩

/-- A registry holding just the stored spawn system, no labels. -/
def regSpawn : SystemRegistry := ⟨[spawnStored], []⟩

/-- The registry after registering one `count_up` under label "count". -/
def regOne : SystemRegistry :=
  (registerBoxedSystemWithLabels emptyRegistry w0 countUp [.named "count"]).1

/-- The registry of the `run_system_by_label` test: `count_up` registered
twice under label "count". -/
def regTwo : SystemRegistry :=
  (registerBoxedSystemWithLabels regOne w0 countUp [.named "count"]).1

/-- One system bumping the counter by 3, under label "lbl3". -/
def regLbl3 : SystemRegistry :=
  (registerBoxedSystemWithLabels emptyRegistry w0 (countUpBy 3) [.named "lbl3"]).1

/-- One system bumping the counter by 5, under label "once". -/
def regOnce5 : SystemRegistry :=
  (registerBoxedSystemWithLabels emptyRegistry w0 (countUpBy 5) [.named "once"]).1

/-- One system bumping the counter by 2, under label "solo". -/
def regSolo2 : SystemRegistry :=
  (registerBoxedSystemWithLabels emptyRegistry w0 (countUpBy 2) [.named "solo"]).1

/-- The registry after `run_system` has registered `count_up` under its
automatic label (type id 3). -/
def regAuto3 : SystemRegistry :=
  (registerBoxedSystemWithLabels emptyRegistry w0 countUp [.auto 3]).1

/-- Two distinct units manually registered under the same automatic label
(type id 5): first one bumping by 10, then one bumping by 100. -/
def regDup : SystemRegistry :=
  (registerBoxedSystemWithLabels
    (registerBoxedSystemWithLabels emptyRegistry w0 (countUpBy 10) [.auto 5]).1
    w0 (countUpBy 100) [.auto 5]).1

/-- Two units under two different labels: a bump-by-1 under "x", then a
bump-by-2 under "y"; label "x" stores index 1, and the system vector has
length 2, so index 1 happens to be in range (it names the wrong unit). -/
def regXY : SystemRegistry :=
  (registerBoxedSystemWithLabels
    (registerBoxedSystemWithLabels emptyRegistry w0 (countUpBy 1) [.named "x"]).1
    w0 (countUpBy 2) [.named "y"]).1

/-! ### General lemmas about the registry operations -/

/-- Running an out-of-range index is the out-of-range panic. -/
theorem runSystemAtIndex_ge (reg : SystemRegistry) (world : World) (i : Nat)
    (hi : reg.systems.length ≤ i) :
    runSystemAtIndex reg world i = .error (.indexOutOfRange i) := by
  unfold runSystemAtIndex
  rw [List.getElem?_eq_none hi]

/-- Running an in-range index succeeds, keeps the label index untouched, and
keeps the system vector's length (only the slot that ran is overwritten). -/
theorem runSystemAtIndex_lt (reg : SystemRegistry) (world : World) (i : Nat)
    (hi : i < reg.systems.length) :
    ∃ reg' world', runSystemAtIndex reg world i = .ok (reg', world') ∧
      reg'.labels = reg.labels ∧ reg'.systems.length = reg.systems.length := by
  unfold runSystemAtIndex
  rw [List.getElem?_eq_getElem hi]
  exact ⟨_, _, rfl, rfl, by simp⟩

/-- Whatever a successful `runSystemAtIndex` returns has the same label index
and a system vector of the same length as its input. -/
theorem runSystemAtIndex_ok (reg : SystemRegistry) (world : World) (i : Nat)
    (reg' : SystemRegistry) (world' : World)
    (h : runSystemAtIndex reg world i = .ok (reg', world')) :
    reg'.labels = reg.labels ∧ reg'.systems.length = reg.systems.length := by
  by_cases hi : i < reg.systems.length
  · obtain ⟨r, w, hrun, hl, hlen⟩ := runSystemAtIndex_lt reg world i hi
    rw [hrun] at h
    simp only [Except.ok.injEq, Prod.mk.injEq] at h
    obtain ⟨rfl, rfl⟩ := h
    exact ⟨hl, hlen⟩
  · rw [runSystemAtIndex_ge reg world i (Nat.le_of_not_lt hi)] at h
    exact absurd h (by simp)

/-- A successful run of an index list keeps the label index and the system
vector's length. -/
theorem runSystemsAtIndexes_ok (idxs : List Nat) :
    ∀ (reg : SystemRegistry) (world : World) (reg' : SystemRegistry) (world' : World),
      runSystemsAtIndexes reg world idxs = .ok (reg', world') →
      reg'.labels = reg.labels ∧ reg'.systems.length = reg.systems.length := by
  induction idxs with
  | nil =>
      intro reg world reg' world' h
      unfold runSystemsAtIndexes at h
      simp only [Except.ok.injEq, Prod.mk.injEq] at h
      obtain ⟨rfl, rfl⟩ := h
      exact ⟨rfl, rfl⟩
  | cons i rest ih =>
      intro reg world reg' world' h
      unfold runSystemsAtIndexes at h
      cases hrun : runSystemAtIndex reg world i with
      | error e => rw [hrun] at h; exact absurd h (by simp)
      | ok p =>
          obtain ⟨r, w⟩ := p
          rw [hrun] at h
          obtain ⟨hl1, hlen1⟩ := runSystemAtIndex_ok reg world i r w hrun
          obtain ⟨hl2, hlen2⟩ := ih r w reg' world' h
          exact ⟨hl2.trans hl1, hlen2.trans hlen1⟩

/-- The positions the label-run loop actually executes are the longest
prefix of the index list whose entries are in range of the system vector:
the loop stops at the first out-of-range index (the Rust panic), and a
successful step never changes the vector's length. -/
theorem runIndexesTrace_takeWhile (idxs : List Nat) :
    ∀ (reg : SystemRegistry) (world : World),
      runIndexesTrace reg world idxs =
        idxs.takeWhile (fun i => decide (i < reg.systems.length)) := by
  induction idxs with
  | nil => intro reg world; rfl
  | cons i rest ih =>
      intro reg world
      unfold runIndexesTrace
      by_cases hi : i < reg.systems.length
      · obtain ⟨r, w, hrun, _, hlen⟩ := runSystemAtIndex_lt reg world i hi
        rw [hrun, List.takeWhile_cons, if_pos (by simpa using hi)]
        show i :: runIndexesTrace r w rest = _
        rw [ih r w, hlen]
      · rw [runSystemAtIndex_ge reg world i (Nat.le_of_not_lt hi),
          List.takeWhile_cons, if_neg (by simpa using hi)]

/-- Every entry of the label index carries a non-empty position list. -/
def entriesNonempty (m : List (LabelKey × List Nat)) : Prop :=
  ∀ p ∈ m, p.2 ≠ []

/-- A successful lookup is a map entry. -/
theorem lookupLabel_mem (m : List (LabelKey × List Nat)) (l : LabelKey)
    (idxs : List Nat) (h : lookupLabel m l = some idxs) : (l, idxs) ∈ m := by
  induction m with
  | nil => exact absurd h (by simp [lookupLabel])
  | cons p rest ih =>
      obtain ⟨k, v⟩ := p
      unfold lookupLabel at h
      by_cases hk : k = l
      · rw [if_pos hk] at h
        simp only [Option.some.injEq] at h
        subst hk; subst h
        exact List.mem_cons_self _ _
      · rw [if_neg hk] at h
        exact List.mem_cons_of_mem _ (ih h)

/-- `addIndex` keeps every entry non-empty: it either appends to an existing
entry or inserts a fresh one-element entry. -/
theorem entriesNonempty_addIndex (m : List (LabelKey × List Nat)) (l : LabelKey)
    (n : Nat) (hm : entriesNonempty m) : entriesNonempty (addIndex m l n) := by
  induction m with
  | nil =>
      intro p hp
      simp only [addIndex, List.mem_singleton] at hp
      subst hp
      simp
  | cons q rest ih =>
      obtain ⟨k, v⟩ := q
      have hrest : entriesNonempty rest := fun p hp => hm p (List.mem_cons_of_mem _ hp)
      intro p hp
      unfold addIndex at hp
      by_cases hk : k = l
      · rw [if_pos hk] at hp
        rcases List.mem_cons.mp hp with hp | hp
        · subst hp; simp
        · exact hrest p hp
      · rw [if_neg hk] at hp
        rcases List.mem_cons.mp hp with hp | hp
        · subst hp; exact hm (k, v) (List.mem_cons_self _ _)
        · exact ih hrest p hp

/-- Folding `addIndex` over any list of labels keeps every entry
non-empty. -/
theorem entriesNonempty_foldl (labels : List LabelKey) (n : Nat) :
    ∀ m : List (LabelKey × List Nat), entriesNonempty m →
      entriesNonempty (labels.foldl (fun m' l => addIndex m' l n) m) := by
  induction labels with
  | nil => intro m hm; exact hm
  | cons l rest ih =>
      intro m hm
      exact ih (addIndex m l n) (entriesNonempty_addIndex m l n hm)

/-- Registration keeps every label entry non-empty. -/
theorem entriesNonempty_register (reg : SystemRegistry) (world : World)
    (sys : BoxedSystem) (labels : List LabelKey)
    (hm : entriesNonempty reg.labels) :
    entriesNonempty (registerBoxedSystemWithLabels reg world sys labels).1.labels :=
  entriesNonempty_foldl labels _ reg.labels hm

/-- A successful `run_system` call keeps every label entry non-empty (it at
most performs one registration, then runs one index). -/
theorem entriesNonempty_runSystem (reg : SystemRegistry) (world : World)
    (tid : Nat) (sys : BoxedSystem) (reg' : SystemRegistry) (world' : World)
    (hm : entriesNonempty reg.labels)
    (h : runSystem reg world tid sys = .ok (reg', world')) :
    entriesNonempty reg'.labels := by
  have hpwf : entriesNonempty (runSystemRegPhase reg world tid sys).1.labels := by
    unfold runSystemRegPhase
    by_cases hreg : isLabelRegistered reg (LabelKey.auto tid)
    · rw [if_pos hreg]; exact hm
    · rw [if_neg hreg]
      exact entriesNonempty_register reg world sys [LabelKey.auto tid] hm
  unfold runSystem at h
  cases hfirst : firstRegisteredIndex (runSystemRegPhase reg world tid sys).1
      (LabelKey.auto tid) with
  | none => rw [hfirst] at h; exact absurd h (by simp)
  | some i =>
      rw [hfirst] at h
      obtain ⟨hl, _⟩ := runSystemAtIndex_ok _ _ i reg' world' h
      rw [hl]; exact hpwf

/-- Registry states reachable from the default empty registry by any
sequence of registry operations: registrations (against any world) and
successfully completed runs by label or by identity. -/
inductive Reachable : SystemRegistry → Prop where
  | empty : Reachable emptyRegistry
  | registerStep (reg : SystemRegistry) (world : World) (sys : BoxedSystem)
      (labels : List LabelKey) : Reachable reg →
      Reachable (registerBoxedSystemWithLabels reg world sys labels).1
  | runLabelStep (reg : SystemRegistry) (world : World) (label : LabelKey)
      (reg' : SystemRegistry) (world' : World) : Reachable reg →
      runSystemsByLabel reg world label = .ok (reg', world') → Reachable reg'
  | runIdentStep (reg : SystemRegistry) (world : World) (tid : Nat)
      (sys : BoxedSystem) (reg' : SystemRegistry) (world' : World) :
      Reachable reg → runSystem reg world tid sys = .ok (reg', world') →
      Reachable reg'

/-- Every reachable registry has only non-empty label entries. -/
theorem reachable_entriesNonempty (reg : SystemRegistry) (h : Reachable reg) :
    entriesNonempty reg.labels := by
  induction h with
  | empty => intro p hp; exact absurd hp (by simp [emptyRegistry])
  | registerStep reg world sys labels _ ih =>
      exact entriesNonempty_register reg world sys labels ih
  | runLabelStep reg world label reg' world' _ hrun ih =>
      unfold runSystemsByLabel at hrun
      cases hl : lookupLabel reg.labels label with
      | none => rw [hl] at hrun; exact absurd hrun (by simp)
      | some idxs =>
          rw [hl] at hrun
          obtain ⟨hlab, _⟩ := runSystemsAtIndexes_ok idxs reg world reg' world' hrun
          rw [hlab]; exact ih
  | runIdentStep reg world tid sys reg' world' _ hrun ih =>
      exact entriesNonempty_runSystem reg world tid sys reg' world' ih hrun

/-! ### The claims -/

/-- Claim C1, refuted by the code (which here contradicts its own tests):
after registering one unit under one label, the label index stores position
1 while the unit sits in slot 0 of a one-element system vector — the stored
position is the vector length AFTER the push, not the slot of the push — so
running that label fails with an index-out-of-range panic instead of
executing the unit. -/
theorem c1_stored_position_misses_slot :
    lookupLabel regOne.labels (.named "count") = some [1] ∧
    regOne.systems.length = 1 ∧
    runSystemsByLabel regOne w0 (.named "count") = .error (.indexOutOfRange 1) :=
  ⟨rfl, rfl, rfl⟩

/-- Claim C2, refuted by the code (the `run_system_by_label` test asserts
the counter reaches 2): with `count_up` registered twice under "count", the
label's stored positions are [1, 2] over a two-slot vector; the run
executes stored position 1 only (which is the second-registered unit) and
then panics out of range at stored position 2, so the counter is never
raised by 2. -/
theorem c2_count_label_scenario_panics :
    lookupLabel regTwo.labels (.named "count") = some [1, 2] ∧
    runSystemsByLabel regTwo w0 (.named "count") = .error (.indexOutOfRange 2) ∧
    runLabelTrace regTwo w0 (.named "count") = some [1] :=
  ⟨rfl, rfl, rfl⟩

/-- Claim C3: running a never-registered label does fail fatally with a
diagnostic naming the offending label (first conjunct), but absence is NOT
the only failure mode of label dispatch: a label that is present (one unit
registered under "lbl3") still fails, with an index-out-of-range panic,
because the stored position is off by one. -/
theorem c3_absence_not_only_failure_mode :
    runSystemsByLabel emptyRegistry w0 (.named "missing") =
      .error (.labelNotFound (.named "missing")) ∧
    isLabelRegistered regLbl3 (.named "lbl3") = true ∧
    runSystemsByLabel regLbl3 w0 (.named "lbl3") = .error (.indexOutOfRange 1) :=
  ⟨rfl, rfl, rfl⟩

/-- Claim C4, refuted by the code: for a present label ("once", one unit
registered under it), running the label executes none of the label's
positions — the trace of executed positions is empty — and instead panics
out of range, so label dispatch does not execute every stored position. -/
theorem c4_present_label_run_executes_nothing :
    lookupLabel regOnce5.labels (.named "once") = some [1] ∧
    runLabelTrace regOnce5 w0 (.named "once") = some [] ∧
    runSystemsByLabel regOnce5 w0 (.named "once") = .error (.indexOutOfRange 1) :=
  ⟨rfl, rfl, rfl⟩

/-- Claim C5: for any valid position (one actually holding a stored unit),
the execution primitive runs that unit against the world and then
immediately applies that same unit's own deferred-command batch — the batch
the step just produced, appended to anything already pending — to the world
before returning; the stored unit is left with an empty pending queue (no
separate flush remains for the caller) and only that slot of the vector is
overwritten. -/
theorem c5_run_at_index_flushes_own_buffers (reg : SystemRegistry)
    (world : World) (i : Nat) (s : StoredSystem)
    (h : reg.systems[i]? = some s) :
    runSystemAtIndex reg world i =
      .ok (⟨reg.systems.set i ⟨(s.step s.state world).1, [], s.step⟩, reg.labels⟩,
           applyCmds (s.pending ++ (s.step s.state world).2.2)
             (s.step s.state world).2.1) := by
  unfold runSystemAtIndex
  rw [h]
  rfl

/-- Witness for C5: a stored unit that queues one spawn command; running it
at its (valid) slot returns the world with the command already applied. -/
theorem c5_witness :
    regSpawn.systems[0]? = some spawnStored ∧
    runSystemAtIndex regSpawn w0 0 =
      .ok (⟨regSpawn.systems.set 0
              ⟨(spawnStored.step spawnStored.state w0).1, [], spawnStored.step⟩,
            regSpawn.labels⟩,
           applyCmds
             (spawnStored.pending ++ (spawnStored.step spawnStored.state w0).2.2)
             (spawnStored.step spawnStored.state w0).2.1) :=
  ⟨rfl, c5_run_at_index_flushes_own_buffers regSpawn w0 0 spawnStored rfl⟩

/-- Claim C6, refuted by the code (whose doc example and `run_system` test
assert the counter reaches 1): a run-by-identity call on a fresh registry
registers the unit and then panics out of range (the stored automatic-label
position is 1, the unit sits in slot 0), and a later call with the
automatic label already registered panics the same way, so no
run-by-identity call ever completes and per-instance state never
accumulates. -/
theorem c6_identity_run_never_completes :
    runSystem emptyRegistry w0 3 countUp = .error (.indexOutOfRange 1) ∧
    isLabelRegistered regAuto3 (.auto 3) = true ∧
    runSystem regAuto3 w0 3 countUp = .error (.indexOutOfRange 1) :=
  ⟨rfl, rfl, rfl⟩

/-- Claim C7: manual registration never deduplicates and never executes.
Whatever the registry already contains — including an equivalent unit under
the very same labels — a register call appends exactly one fresh stored
unit carrying the independently initialized state, leaves the world touched
only by the unit's initialization hook (its step function is never
invoked), and a second identical call grows the vector by one again. -/
theorem c7_register_appends_never_dedups_never_runs (reg : SystemRegistry)
    (world : World) (sys : BoxedSystem) (labels : List LabelKey) :
    (registerBoxedSystemWithLabels reg world sys labels).1.systems =
        reg.systems ++ [⟨sys.initState, [], sys.step⟩] ∧
    (registerBoxedSystemWithLabels reg world sys labels).2 =
        sys.initWorld world ∧
    (registerBoxedSystemWithLabels
        (registerBoxedSystemWithLabels reg world sys labels).1
        (registerBoxedSystemWithLabels reg world sys labels).2
        sys labels).1.systems.length = reg.systems.length + 2 := by
  refine ⟨rfl, rfl, ?_⟩
  simp [registerBoxedSystemWithLabels]

/-- Claim C8, refuted by the code: with two distinct units inserted under
the same automatic label (first registered bumps the counter by 10, second
by 100), the run-by-identity path takes the FIRST STORED POSITION (1), but
because stored positions are off by one that slot holds the
SECOND-registered unit: the run ends with counter 100, not 10, so it is not
the first-registered unit that executes. -/
theorem c8_identity_path_runs_second_registered :
    lookupLabel regDup.labels (.auto 5) = some [1, 2] ∧
    (runSystem regDup w0 5 (countUpBy 10)).toOption.map (fun p => p.2.counter) =
      some 100 ∧
    (runSystem regDup w0 5 (countUpBy 10)).toOption.map (fun p => p.2.counter) ≠
      some 10 :=
  ⟨rfl, rfl, by decide⟩

/-- Claim C9: in every registry reachable by any sequence of registry
operations, a label present in the index maps to a non-empty position list
— the entry is only ever created together with at least one inserted
position, and runs never empty it. -/
theorem c9_label_present_implies_nonempty (reg : SystemRegistry)
    (l : LabelKey) (idxs : List Nat) (hreach : Reachable reg)
    (h : lookupLabel reg.labels l = some idxs) : idxs ≠ [] :=
  reachable_entriesNonempty reg hreach (l, idxs) (lookupLabel_mem reg.labels l idxs h)

/-- Witness for C9: the registry with one registration under "count" is
reachable and its "count" entry is the non-empty list [1]. -/
theorem c9_witness :
    lookupLabel regOne.labels (.named "count") = some [1] ∧
    ([1] : List Nat) ≠ [] :=
  ⟨rfl, c9_label_present_implies_nonempty regOne (.named "count") [1]
    (Reachable.registerStep emptyRegistry w0 countUp [.named "count"]
      Reachable.empty) rfl⟩

/-- Counterexample to claim C10 as stated: for the registry with one unit
registered under "solo" the snapshot list is [1], yet the run executes no
position at all (it panics out of range first), so the positions executed
are not exactly the list as it stood when the run began. -/
theorem c10_counterexample :
    lookupLabel regSolo2.labels (.named "solo") = some [1] ∧
    runLabelTrace regSolo2 w0 (.named "solo") = some [] ∧
    runLabelTrace regSolo2 w0 (.named "solo") ≠ some [1] :=
  ⟨rfl, rfl, by decide⟩

/-- Claim C10 as amended: label dispatch iterates over a snapshot of the
label's position list taken when the run begins, and the positions executed
are exactly the longest prefix of that snapshot whose entries are in range
of the system vector (the whole snapshot when every entry is in range; a
panic cuts the run at the first out-of-range entry).  The executed
positions are a function of the snapshot and the vector length alone, so
nothing that happens during the run adds positions to the current run. -/
theorem c10_trace_is_in_range_portion_of_snapshot (reg : SystemRegistry)
    (world : World) (label : LabelKey) (idxs : List Nat)
    (h : lookupLabel reg.labels label = some idxs) :
    runLabelTrace reg world label =
      some (idxs.takeWhile (fun i => decide (i < reg.systems.length))) := by
  unfold runLabelTrace
  rw [h]
  show some (runIndexesTrace reg world idxs) = _
  rw [runIndexesTrace_takeWhile]

/-- Witness for C10 as amended: label "x" of the two-label registry stores
[1] over a two-slot vector; the run executes exactly [1]. -/
theorem c10_witness :
    lookupLabel regXY.labels (.named "x") = some [1] ∧
    runLabelTrace regXY w0 (.named "x") =
      some (([1] : List Nat).takeWhile
        (fun i => decide (i < regXY.systems.length))) :=
  ⟨rfl, c10_trace_is_in_range_portion_of_snapshot regXY w0 (.named "x") [1] rfl⟩

end SystemRegistryModel
